import Mathlib

/-!
Verification of the Confluence connector
(`backend/onyx/connectors/confluence/connector.py`).

The development shallowly embeds the connector's pure logic: CQL query
construction, the batch fetcher, the slim-metadata fetcher, and the
settings validator.  External collaborators (the paginated HTTP client,
HTML extraction, the credentials provider) enter as parameters: a run of
a fetch routine is modelled as a function of the record lists the client
would have returned for each query.
-/

/-- Python `str.rstrip("/")`: remove every trailing slash character.
Embeds `wiki_base.rstrip("/")` from `ConfluenceConnector.__init__`. -/
def pyRstripSlash (s : String) : String :=
  String.mk ((s.data.reverse.dropWhile (fun c => c = '/')).reverse)

/-- UTF-8 bytes of a character, as used by Python `urllib.parse.quote`
before percent-encoding. -/
def utf8Bytes (c : Char) : List Nat :=
  let n := c.toNat
  if n < 128 then [n]
  else if n < 2048 then [192 + n / 64, 128 + n % 64]
  else if n < 65536 then [224 + n / 4096, 128 + (n / 64) % 64, 128 + n % 64]
  else [240 + n / 262144, 128 + (n / 4096) % 64, 128 + (n / 64) % 64, 128 + n % 64]

/-- Bytes `urllib.parse.quote` leaves unescaped with its default
`safe="/"`: ASCII letters, digits, `_ . - ~` and `/`. -/
def quoteSafeByte (b : Nat) : Bool :=
  (65 ≤ b && b ≤ 90) || (97 ≤ b && b ≤ 122) || (48 ≤ b && b ≤ 57) ||
    b == 95 || b == 46 || b == 45 || b == 126 || b == 47

/-- Upper-case hexadecimal digit, for percent-escapes. -/
def hexDigitChar (n : Nat) : Char :=
  if n < 10 then Char.ofNat (48 + n) else Char.ofNat (55 + n)

/-- Python `urllib.parse.quote(s)` with the default safe set: UTF-8
encode, keep safe bytes, percent-encode the rest with upper-case hex. -/
def pyQuote (s : String) : String :=
  String.mk (s.data.flatMap fun c =>
    (utf8Bytes c).flatMap fun b =>
      if quoteSafeByte b then [Char.ofNat b]
      else ['%', hexDigitChar (b / 16), hexDigitChar (b % 16)])

/-- Python truthiness of a string (`if space:`): nonempty. -/
def pyTruthyStr (s : String) : Bool := s != ""

/-- Python truthiness of an optional string (`if cql_query:` on a
`str | None` value): present and nonempty. -/
def pyTruthyOptStr : Option String → Bool
  | none => false
  | some s => s != ""

/-- Python truthiness of an optional number (`if start:` on a
`SecondsSinceUnixEpoch | None` value): present and nonzero. -/
def pyTruthyOptInt : Option Int → Bool
  | none => false
  | some n => n != 0

/-- The configuration state `ConfluenceConnector.__init__` stores on
`self` (fields the verified routines read). -/
structure ConfluenceConnector where
  batch_size : Nat
  continue_on_failure : Bool
  is_cloud : Bool
  wiki_base : String
  base_cql_page_query : String
  cql_label_filter : String
  tz_offset_seconds : Int
deriving DecidableEq

/-- Embedding of `ConfluenceConnector.__init__`.  The timezone offset is
carried in seconds (`timedelta(hours=timezone_offset)`).  Python's
`list(set(labels_to_skip))` deduplicates in unspecified order; here the
first occurrence of each label is kept. -/
def ConfluenceConnector.init (wiki_base : String) (is_cloud : Bool) (space : String)
    (page_id : String) (index_recursively : Bool) (cql_query : Option String)
    (batch_size : Nat) (continue_on_failure : Bool) (labels_to_skip : List String)
    (tz_offset_seconds : Int) : ConfluenceConnector :=
  let base_cql_page_query :=
    if pyTruthyOptStr cql_query then cql_query.getD ""
    else if pyTruthyStr page_id then
      if index_recursively then
        "type=page" ++ " and (ancestor=\x27" ++ page_id ++ "\x27 or id=\x27" ++ page_id ++ "\x27)"
      else
        "type=page" ++ " and id=\x27" ++ page_id ++ "\x27"
    else if pyTruthyStr space then
      "type=page" ++ " and space=\x27" ++ pyQuote space ++ "\x27"
    else "type=page"
  let cql_label_filter :=
    if labels_to_skip.isEmpty then ""
    else
      " and label not in (" ++
        String.intercalate ","
          (labels_to_skip.eraseDups.map (fun l => "\x27" ++ pyQuote l ++ "\x27")) ++ ")"
  { batch_size := batch_size
    continue_on_failure := continue_on_failure
    is_cloud := is_cloud
    wiki_base := pyRstripSlash wiki_base
    base_cql_page_query := base_cql_page_query
    cql_label_filter := cql_label_filter
    tz_offset_seconds := tz_offset_seconds }

/-- C1: exactly one page-filter category is applied to the base page
query, chosen by priority raw-query > page-id > space > none: a (truthy)
raw CQL query replaces the base query entirely; otherwise a page id
yields the filter `id='<page_id>'` (or `(ancestor='<page_id>' or
id='<page_id>')` when `index_recursively`); otherwise a space yields
`space='<URL-escaped space>'`; otherwise the query is the unfiltered
`type=page`. -/
theorem page_filter_priority (wiki_base : String) (is_cloud : Bool) (space page_id : String)
    (index_recursively : Bool) (cql_query : Option String) (batch_size : Nat)
    (continue_on_failure : Bool) (labels_to_skip : List String) (tz_offset_seconds : Int) :
    (ConfluenceConnector.init wiki_base is_cloud space page_id index_recursively cql_query
        batch_size continue_on_failure labels_to_skip tz_offset_seconds).base_cql_page_query =
      if pyTruthyOptStr cql_query then cql_query.getD ""
      else if pyTruthyStr page_id then
        if index_recursively then
          "type=page and (ancestor=\x27" ++ page_id ++ "\x27 or id=\x27" ++ page_id ++ "\x27)"
        else
          "type=page and id=\x27" ++ page_id ++ "\x27"
      else if pyTruthyStr space then
        "type=page and space=\x27" ++ pyQuote space ++ "\x27"
      else "type=page" := by
  simp only [ConfluenceConnector.init]
  rfl

/-- Gregorian civil date (year, month, day) from a count of days since
the Unix epoch 1970-01-01, by the standard era/day-of-era decomposition;
used to embed Python `datetime.fromtimestamp`. -/
def civilFromDays (z0 : Int) : Int × Nat × Nat :=
  let z := z0 + 719468
  let era : Int := Int.ediv z 146097
  let doe : Nat := (z - era * 146097).toNat
  let yoe : Nat := (doe - doe / 1460 + doe / 36524 - doe / 146096) / 365
  let y : Int := (yoe : Int) + era * 400
  let doy : Nat := doe - (365 * yoe + yoe / 4 - yoe / 100)
  let mp : Nat := (5 * doy + 2) / 153
  let d : Nat := doy - (153 * mp + 2) / 5 + 1
  let m : Nat := if mp < 10 then mp + 3 else mp - 9
  (if m ≤ 2 then y + 1 else y, m, d)

/-- Two-digit zero padding, as in `strftime` fields `%m %d %H %M`. -/
def pad2 (n : Nat) : String :=
  if n < 10 then "0" ++ toString n else toString n

/-- Four-digit zero padding for the year (`%Y`); the years produced by
representable timestamps are positive. -/
def pad4 (y : Int) : String :=
  let s := toString y.toNat
  String.mk (List.replicate (4 - s.length) '0') ++ s

/-- Embedding of
`datetime.fromtimestamp(ts, tz).strftime("%Y-%m-%d %H:%M")` from
`_construct_page_query`: shift the epoch second by the timezone offset,
split into civil date and time of day, and format at minute
precision. -/
def formatConfluenceTime (epoch : Int) (tzOffsetSeconds : Int) : String :=
  let t := epoch + tzOffsetSeconds
  let days := Int.ediv t 86400
  let sod := (Int.emod t 86400).toNat
  let ymd := civilFromDays days
  pad4 ymd.1 ++ "-" ++ pad2 ymd.2.1 ++ "-" ++ pad2 ymd.2.2 ++ " " ++
    pad2 (sod / 3600) ++ ":" ++ pad2 (sod % 3600 / 60)

/-- The `" and lastmodified >= '...'"` clause appended for a truthy
start bound. -/
def startBoundClause (c : ConfluenceConnector) (v : Int) : String :=
  " and lastmodified >= \x27" ++ formatConfluenceTime v c.tz_offset_seconds ++ "\x27"

/-- The `" and lastmodified <= '...'"` clause appended for a truthy end
bound. -/
def endBoundClause (c : ConfluenceConnector) (v : Int) : String :=
  " and lastmodified <= \x27" ++ formatConfluenceTime v c.tz_offset_seconds ++ "\x27"

/-- Embedding of `ConfluenceConnector._construct_page_query`.  Note that
the source tests the bounds with Python truthiness (`if start:` /
`if end:`), so a bound equal to 0 behaves like an absent bound. -/
def construct_page_query (c : ConfluenceConnector) (start endBound : Option Int) : String :=
  let q := c.base_cql_page_query ++ c.cql_label_filter
  let q := if pyTruthyOptInt start then q ++ startBoundClause c (start.getD 0) else q
  if pyTruthyOptInt endBound then q ++ endBoundClause c (endBound.getD 0) else q

/-- A concrete connector configuration (no space, no page id, no raw
query, no labels, UTC offset), used by concrete evaluations below. -/
def sampleConnector : ConfluenceConnector :=
  ConfluenceConnector.init "https://wiki.example.com" true "" "" false none 16 false [] 0

/-- C6 counterexample: with a start bound equal to epoch second 0, the
constructed page query is the bare base query, which cannot contain the
claimed `lastmodified >=` clause (the clause alone is longer than the
whole query), contradicting the claim that the clause appears for every
provided bound "including the epoch value 0". -/
theorem time_bound_zero_counterexample :
    construct_page_query sampleConnector (some 0) none = "type=page" ∧
    ¬ (startBoundClause sampleConnector 0).data <:+: ("type=page").data := by
  constructor
  · decide
  · intro h
    have hlen := h.length_le
    revert hlen
    decide

/-- C6 amended: a `lastmodified >=` (resp. `<=`) clause with the bound
formatted at minute precision in the configured timezone offset appears
in the constructed page query exactly for a provided *nonzero* start
(resp. end) bound; a bound that is absent or equal to 0 (falsy in
Python) adds no clause, leaving the query equal to the corresponding
unbounded query. -/
theorem time_bound_clauses (c : ConfluenceConnector) (start endBound : Option Int) :
    (∀ v : Int, start = some v → v ≠ 0 →
      (startBoundClause c v).data <:+: (construct_page_query c start endBound).data) ∧
    (∀ v : Int, endBound = some v → v ≠ 0 →
      (endBoundClause c v).data <:+: (construct_page_query c start endBound).data) ∧
    (pyTruthyOptInt start = false →
      construct_page_query c start endBound = construct_page_query c none endBound) ∧
    (pyTruthyOptInt endBound = false →
      construct_page_query c start endBound = construct_page_query c start none) := by
  have hdata : ∀ s e : Option Int, (construct_page_query c s e).data =
      (c.base_cql_page_query ++ c.cql_label_filter).data ++
        (if pyTruthyOptInt s then (startBoundClause c (s.getD 0)).data else []) ++
        (if pyTruthyOptInt e then (endBoundClause c (e.getD 0)).data else []) := by
    intro s e
    unfold construct_page_query
    cases hS : pyTruthyOptInt s <;> cases hE : pyTruthyOptInt e <;>
      simp [hS, hE, String.data_append]
  refine ⟨?_, ?_, ?_, ?_⟩
  · intro v hv hv0
    subst hv
    have htr : pyTruthyOptInt (some v) = true := by
      simp [pyTruthyOptInt, hv0]
    rw [hdata, htr]
    exact ⟨(c.base_cql_page_query ++ c.cql_label_filter).data,
      if pyTruthyOptInt endBound then (endBoundClause c (endBound.getD 0)).data else [],
      by simp⟩
  · intro v hv hv0
    subst hv
    have htr : pyTruthyOptInt (some v) = true := by
      simp [pyTruthyOptInt, hv0]
    rw [hdata, htr]
    exact ⟨(c.base_cql_page_query ++ c.cql_label_filter).data ++
      (if pyTruthyOptInt start then (startBoundClause c (start.getD 0)).data else []),
      [], by simp⟩
  · intro hS
    simp only [construct_page_query, hS]
    simp [pyTruthyOptInt]
  · intro hE
    simp only [construct_page_query, hE]
    simp [pyTruthyOptInt]

/-- Witness for `time_bound_clauses`: at epoch second 1700000000 with
UTC offset, the start clause
`" and lastmodified >= '2023-11-14 22:13'"` occurs in the constructed
query. -/
theorem time_bound_clauses_witness :
    (startBoundClause sampleConnector 1700000000).data <:+:
      (construct_page_query sampleConnector (some 1700000000) none).data :=
  (time_bound_clauses sampleConnector (some 1700000000) none).1 1700000000 rfl (by decide)

section BatchFetch

variable {Page Att Doc : Type}

/-- Python `if doc is not None: doc_batch.append(doc)`: append a converted
document to the running batch when conversion produced one. -/
def batchAppend (o : Option Doc) (acc : List Doc) : List Doc :=
  match o with
  | some d => acc ++ [d]
  | none => acc

/-- The `doc_batch` accumulator discipline of
`_fetch_document_batches`: fold a stream of optional converted
documents, appending each present document to the running batch and
flushing (yielding) whenever `len(doc_batch) >= self.batch_size`.
Returns the flushed batches and the leftover accumulator. -/
def batchYields (batchSize : Nat) : List (Option Doc) → List Doc → List (List Doc) × List Doc
  | [], acc => ([], acc)
  | o :: rest, acc =>
    if batchSize ≤ (batchAppend o acc).length then
      (batchAppend o acc :: (batchYields batchSize rest []).1, (batchYields batchSize rest []).2)
    else
      batchYields batchSize rest (batchAppend o acc)

/-- Embedding of `ConfluenceConnector._fetch_document_batches`.
`pages` is the pagination result of the page query, `pid` reads a
page's `id` (collected for every page, converted or not),
`attachmentsOf i` is the pagination result of
`_construct_attachment_query(i)`, and `convertPage` / `convertAtt`
stand for `_convert_object_to_document` (returning `none` for
unparseable attachments).  The page loop runs first, then the
attachment loop over the collected page ids; the trailing batch is
yielded only when nonempty. -/
def fetch_document_batches (batchSize : Nat) (pages : List Page) (pid : Page → String)
    (attachmentsOf : String → List Att) (convertPage : Page → Option Doc)
    (convertAtt : Att → String → Option Doc) : List (List Doc) :=
  let stream := pages.map convertPage ++
    (pages.map pid).flatMap (fun i => (attachmentsOf i).map (fun a => convertAtt a i))
  let r := batchYields batchSize stream []
  r.1 ++ (if r.2.isEmpty then [] else [r.2])

/-- Embedding of `load_from_state`: it delegates to the full fetch with no time bounds
(`poll_source` likewise passes its bounds straight through). -/
def load_from_state (batchSize : Nat) (pages : List Page) (pid : Page → String)
    (attachmentsOf : String → List Att) (convertPage : Page → Option Doc)
    (convertAtt : Att → String → Option Doc) : List (List Doc) :=
  fetch_document_batches batchSize pages pid attachmentsOf convertPage convertAtt

/-- Flushed batches all have length exactly `batchSize`, and the
leftover accumulator stays strictly below `batchSize`, provided it
starts strictly below. -/
theorem batchYields_sizes (batchSize : Nat) :
    ∀ (s : List (Option Doc)) (acc : List Doc), acc.length < batchSize →
      (∀ b ∈ (batchYields batchSize s acc).1, b.length = batchSize) ∧
        (batchYields batchSize s acc).2.length < batchSize := by
  intro s
  induction s with
  | nil =>
    intro acc hacc
    refine ⟨?_, by simpa [batchYields] using hacc⟩
    intro b hb
    simp [batchYields] at hb
  | cons o rest ih =>
    intro acc hacc
    have hlen : (batchAppend o acc).length ≤ acc.length + 1 := by
      cases o <;> simp [batchAppend]
    by_cases hge : batchSize ≤ (batchAppend o acc).length
    · have heq : (batchAppend o acc).length = batchSize := by omega
      have hrec := ih [] (by simp only [List.length_nil]; omega)
      simp only [batchYields]
      rw [if_pos hge]
      refine ⟨?_, hrec.2⟩
      intro b hb
      rcases List.mem_cons.mp hb with hb | hb
      · rw [hb]; exact heq
      · exact hrec.1 b hb
    · simp only [batchYields]
      rw [if_neg hge]
      exact ih (batchAppend o acc) (by omega)

/-- The flushed batches followed by the leftover accumulator carry
exactly the present documents of the stream, in order. -/
theorem batchYields_flatten (batchSize : Nat) :
    ∀ (s : List (Option Doc)) (acc : List Doc),
      (batchYields batchSize s acc).1.flatten ++ (batchYields batchSize s acc).2 =
        acc ++ s.reduceOption := by
  intro s
  induction s with
  | nil => intro acc; simp [batchYields]
  | cons o rest ih =>
    intro acc
    have happ : acc ++ (o :: rest).reduceOption = batchAppend o acc ++ rest.reduceOption := by
      cases o <;>
        simp [batchAppend, List.reduceOption_cons_of_some, List.reduceOption_cons_of_none]
    by_cases hge : batchSize ≤ (batchAppend o acc).length
    · simp only [batchYields]
      rw [if_pos hge, List.flatten_cons, List.append_assoc, ih [], happ]
      simp
    · simp only [batchYields]
      rw [if_neg hge, ih (batchAppend o acc), happ]

/-- C2: with a configured batch size of at least 1, every batch emitted
by the full document fetch contains at most `batchSize` documents, and
every batch other than the final one contains exactly `batchSize`
documents — only the final batch may be smaller. -/
theorem fetch_batch_sizes (batchSize : Nat) (pages : List Page) (pid : Page → String)
    (attachmentsOf : String → List Att) (convertPage : Page → Option Doc)
    (convertAtt : Att → String → Option Doc) (hbs : 1 ≤ batchSize) :
    (∀ i, ((fetch_document_batches batchSize pages pid attachmentsOf convertPage
        convertAtt).getD i []).length ≤ batchSize) ∧
    (∀ i, i + 1 < (fetch_document_batches batchSize pages pid attachmentsOf convertPage
        convertAtt).length →
      ((fetch_document_batches batchSize pages pid attachmentsOf convertPage
        convertAtt).getD i []).length = batchSize) := by
  simp only [fetch_document_batches]
  set stream := pages.map convertPage ++
    (pages.map pid).flatMap (fun i => (attachmentsOf i).map (fun a => convertAtt a i))
    with hstream
  have hsz := batchYields_sizes batchSize stream []
    (by simp only [List.length_nil]; omega)
  set r := batchYields batchSize stream [] with hr
  set tail := if r.2.isEmpty then ([] : List (List Doc)) else [r.2] with htail
  have htmem : ∀ b ∈ tail, b.length < batchSize := by
    intro b hb
    rw [htail] at hb
    by_cases he : r.2.isEmpty
    · rw [if_pos he] at hb
      simp at hb
    · rw [if_neg he] at hb
      rw [List.mem_singleton] at hb
      rw [hb]
      exact hsz.2
  have htlen : tail.length ≤ 1 := by
    rw [htail]
    by_cases he : r.2.isEmpty
    · rw [if_pos he]; simp
    · rw [if_neg he]; simp
  constructor
  · intro i
    rw [List.getD_eq_getElem?_getD]
    by_cases hi : i < (r.1 ++ tail).length
    · rw [List.getElem?_eq_getElem hi, Option.getD_some]
      have hmem : (r.1 ++ tail)[i] ∈ r.1 ++ tail := List.getElem_mem hi
      rcases List.mem_append.mp hmem with hm | hm
      · exact le_of_eq (hsz.1 _ hm)
      · exact le_of_lt (htmem _ hm)
    · rw [List.getElem?_eq_none (Nat.le_of_not_lt hi), Option.getD_none]
      simp only [List.length_nil]
      omega
  · intro i hi
    rw [List.length_append] at hi
    have hi1 : i < r.1.length := by omega
    have hlt : i < (r.1 ++ tail).length := by
      rw [List.length_append]
      omega
    rw [List.getD_eq_getElem?_getD, List.getElem?_eq_getElem hlt, Option.getD_some,
      List.getElem_append_left hi1]
    exact hsz.1 _ (List.getElem_mem hi1)

/-- Witness for `fetch_batch_sizes`: two pages each converting to a
document, batch size 1: the first (non-final) batch has exactly one
document. -/
theorem fetch_batch_sizes_witness :
    ((fetch_document_batches 1 [0, 1] (fun _ => "p") (fun _ => ([] : List Unit))
        (fun n => some n) (fun _ _ => (none : Option Nat))).getD 0 []).length = 1 :=
  (fetch_batch_sizes 1 [0, 1] (fun _ => "p") (fun _ => ([] : List Unit))
    (fun n => some n) (fun _ _ => (none : Option Nat)) (by decide)).2 0 (by decide)

/-- C3: concatenated over all emitted batches, the full document fetch
emits every document converted from a page before any document
converted from an attachment, and inside each of the two categories the
documents keep the order in which pagination returned the source
records. -/
theorem fetch_ordering (batchSize : Nat) (pages : List Page) (pid : Page → String)
    (attachmentsOf : String → List Att) (convertPage : Page → Option Doc)
    (convertAtt : Att → String → Option Doc) :
    (fetch_document_batches batchSize pages pid attachmentsOf convertPage
        convertAtt).flatten =
      (pages.map convertPage).reduceOption ++
        ((pages.map pid).flatMap
          (fun i => (attachmentsOf i).map (fun a => convertAtt a i))).reduceOption := by
  simp only [fetch_document_batches]
  set stream := pages.map convertPage ++
    (pages.map pid).flatMap (fun i => (attachmentsOf i).map (fun a => convertAtt a i))
    with hstream
  set r := batchYields batchSize stream [] with hr
  have hjoin := batchYields_flatten batchSize stream []
  have hflat : (r.1 ++ (if r.2.isEmpty then [] else [r.2])).flatten =
      r.1.flatten ++ r.2 := by
    by_cases he : r.2.isEmpty
    · rw [if_pos he, List.append_nil]
      rw [List.isEmpty_iff] at he
      rw [he, List.append_nil]
    · rw [if_neg he]
      simp
  rw [hflat, ← hr] at *
  rw [hjoin, List.nil_append, hstream, List.reduceOption_append]

end BatchFetch

/-- The fields of a raw Confluence record that
`retrieve_all_slim_documents` reads.  Restriction dictionaries are
modelled as association lists where `[]` stands for an absent or empty
(falsy) `restrictions` entry — the source treats `None` and `{}`
identically (`or {}` and `if not ...`).  `spaceKey` is
`record.get("space", {}).get("key")`; `ancestors` is
`record.get("ancestors", [])` with `[]` for an absent or falsy value. -/
structure ConfluenceRecord where
  rid : String
  webui : String
  restrictions : List (String × String)
  spaceKey : Option String
  ancestors : List String
deriving DecidableEq

/-- The `perm_sync_data` payload attached to a `SlimDocument`: page
payloads carry `restrictions`, `space_key` and `ancestors`; attachment
payloads carry only the first two (`ancestors = none`). -/
structure PermSyncData where
  restrictions : List (String × String)
  space_key : Option String
  ancestors : Option (List String)
deriving DecidableEq

/-- A slim document: canonical id plus permission-sync payload. -/
structure SlimDocument where
  id : String
  perm_sync_data : PermSyncData
deriving DecidableEq

/-- Modelled from the spec: `build_confluence_document_id` lives in
`onyx.connectors.confluence.utils`, which is not under `src/`.  Per the
spec it deterministically builds the canonical absolute URL from the
wiki base, the record's webui link fragment and the cloud flag, with
cloud and non-cloud instances using different URL shapes. -/
def build_confluence_document_id (wiki_base webui : String) (is_cloud : Bool) : String :=
  if is_cloud then wiki_base ++ "/wiki" ++ webui else wiki_base ++ webui

/-- The page `SlimDocument` appended at lines 383-392 of the source:
own restrictions (`or {}`), raw space key, ancestors (`or []`). -/
def pageSlimDocument (c : ConfluenceConnector) (p : ConfluenceRecord) : SlimDocument :=
  { id := build_confluence_document_id c.wiki_base p.webui c.is_cloud
    perm_sync_data :=
      { restrictions := p.restrictions
        space_key := p.spaceKey
        ancestors := some p.ancestors } }

/-- The attachment `SlimDocument` appended at lines 401-423 of the
source: restrictions fall back to the parent page's when the
attachment's own are falsy, and the space key falls back to the parent
page's when the attachment's own is falsy — two independent
conditions. -/
def attachmentSlimDocument (c : ConfluenceConnector) (a : ConfluenceRecord)
    (page_restrictions : List (String × String)) (page_space_key : Option String) :
    SlimDocument :=
  { id := build_confluence_document_id c.wiki_base a.webui c.is_cloud
    perm_sync_data :=
      { restrictions := if a.restrictions.isEmpty then page_restrictions else a.restrictions
        space_key := if pyTruthyOptStr a.spaceKey then a.spaceKey else page_space_key
        ancestors := none } }

/-- All `SlimDocument`s appended to `doc_metadata_list` while one page
is processed: the page's own document, then one per attachment of the
page that passes `validate_attachment_filetype` (attachments failing it
are skipped with `continue`). -/
def pageSlimDocuments (c : ConfluenceConnector) (valid : ConfluenceRecord → Bool)
    (attachmentsOf : String → List ConfluenceRecord) (p : ConfluenceRecord) :
    List SlimDocument :=
  pageSlimDocument c p ::
    ((attachmentsOf p.rid).filter valid).map
      (fun a => attachmentSlimDocument c a p.restrictions p.spaceKey)

/-- The constant `_SLIM_DOC_BATCH_SIZE` from the source. -/
def SLIM_DOC_BATCH_SIZE : Nat := 5000

/-- Observable outcome of a `retrieve_all_slim_documents` run: the
batches yielded (a raised stop signal keeps the batches yielded before
it), whether a stop signal was raised, and how many times
`callback.should_stop()` was called. -/
structure SlimFetchResult where
  batches : List (List SlimDocument)
  stopped : Bool
  checks : Nat
deriving DecidableEq

/-- Embedding of the main loop of `retrieve_all_slim_documents`.  Per
page: append the page's slim documents; if the accumulated list
exceeds `_SLIM_DOC_BATCH_SIZE`, yield a full-size slice, retain the
remainder, and — only then, when a callback is present — consult
`callback.should_stop()` (modelled as `f i` for the i-th call),
raising a stop signal when it answers `true`.  After the loop the
remaining list is yielded unconditionally. -/
def slimFetchGo (c : ConfluenceConnector) (valid : ConfluenceRecord → Bool)
    (attachmentsOf : String → List ConfluenceRecord) (cb : Option (Nat → Bool)) :
    List ConfluenceRecord → List SlimDocument → Nat → SlimFetchResult
  | [], acc, checks => ⟨[acc], false, checks⟩
  | p :: rest, acc, checks =>
    if SLIM_DOC_BATCH_SIZE <
        (acc ++ pageSlimDocuments c valid attachmentsOf p).length then
      match cb with
      | none =>
        ⟨(acc ++ pageSlimDocuments c valid attachmentsOf p).take SLIM_DOC_BATCH_SIZE ::
            (slimFetchGo c valid attachmentsOf none rest
              ((acc ++ pageSlimDocuments c valid attachmentsOf p).drop SLIM_DOC_BATCH_SIZE)
              checks).batches,
          (slimFetchGo c valid attachmentsOf none rest
            ((acc ++ pageSlimDocuments c valid attachmentsOf p).drop SLIM_DOC_BATCH_SIZE)
            checks).stopped,
          (slimFetchGo c valid attachmentsOf none rest
            ((acc ++ pageSlimDocuments c valid attachmentsOf p).drop SLIM_DOC_BATCH_SIZE)
            checks).checks⟩
      | some f =>
        if f checks then
          ⟨[(acc ++ pageSlimDocuments c valid attachmentsOf p).take SLIM_DOC_BATCH_SIZE],
            true, checks + 1⟩
        else
          ⟨(acc ++ pageSlimDocuments c valid attachmentsOf p).take SLIM_DOC_BATCH_SIZE ::
              (slimFetchGo c valid attachmentsOf (some f) rest
                ((acc ++ pageSlimDocuments c valid attachmentsOf p).drop SLIM_DOC_BATCH_SIZE)
                (checks + 1)).batches,
            (slimFetchGo c valid attachmentsOf (some f) rest
              ((acc ++ pageSlimDocuments c valid attachmentsOf p).drop SLIM_DOC_BATCH_SIZE)
              (checks + 1)).stopped,
            (slimFetchGo c valid attachmentsOf (some f) rest
              ((acc ++ pageSlimDocuments c valid attachmentsOf p).drop SLIM_DOC_BATCH_SIZE)
              (checks + 1)).checks⟩
    else
      slimFetchGo c valid attachmentsOf cb rest
        (acc ++ pageSlimDocuments c valid attachmentsOf p) checks

/-- Embedding of `retrieve_all_slim_documents`: run the loop over the
pagination result of the page query (base query + label filter) with an
empty accumulator. -/
def retrieve_all_slim_documents (c : ConfluenceConnector)
    (valid : ConfluenceRecord → Bool) (attachmentsOf : String → List ConfluenceRecord)
    (cb : Option (Nat → Bool)) (pages : List ConfluenceRecord) : SlimFetchResult :=
  slimFetchGo c valid attachmentsOf cb pages [] 0

/-- A callback-free run never stops, never consults a callback, always
yields at least one batch, and its batches concatenate to every slim
document of every page, in page order. -/
theorem slimFetchGo_none_spec (c : ConfluenceConnector) (valid : ConfluenceRecord → Bool)
    (attachmentsOf : String → List ConfluenceRecord) :
    ∀ (pages : List ConfluenceRecord) (acc : List SlimDocument) (checks : Nat),
      (slimFetchGo c valid attachmentsOf none pages acc checks).stopped = false ∧
      (slimFetchGo c valid attachmentsOf none pages acc checks).checks = checks ∧
      (slimFetchGo c valid attachmentsOf none pages acc checks).batches ≠ [] ∧
      (slimFetchGo c valid attachmentsOf none pages acc checks).batches.flatten =
        acc ++ pages.flatMap (pageSlimDocuments c valid attachmentsOf) := by
  intro pages
  induction pages with
  | nil =>
    intro acc checks
    exact ⟨rfl, rfl, by simp [slimFetchGo], by simp [slimFetchGo]⟩
  | cons p rest ih =>
    intro acc checks
    by_cases hge : SLIM_DOC_BATCH_SIZE <
        (acc ++ pageSlimDocuments c valid attachmentsOf p).length
    · have hrec := ih ((acc ++ pageSlimDocuments c valid attachmentsOf p).drop
        SLIM_DOC_BATCH_SIZE) checks
      simp only [slimFetchGo]
      rw [if_pos hge]
      refine ⟨hrec.1, hrec.2.1, by simp, ?_⟩
      rw [List.flatten_cons, hrec.2.2.2, ← List.append_assoc, List.take_append_drop]
      simp [List.flatMap_cons, List.append_assoc]
    · have hrec := ih (acc ++ pageSlimDocuments c valid attachmentsOf p) checks
      simp only [slimFetchGo]
      rw [if_neg hge]
      refine ⟨hrec.1, hrec.2.1, hrec.2.2.1, ?_⟩
      rw [hrec.2.2.2]
      simp [List.flatMap_cons, List.append_assoc]

/-- Every run yields at least one batch, whatever the callback. -/
theorem slimFetchGo_batches_ne_nil (c : ConfluenceConnector)
    (valid : ConfluenceRecord → Bool) (attachmentsOf : String → List ConfluenceRecord)
    (cb : Option (Nat → Bool)) :
    ∀ (pages : List ConfluenceRecord) (acc : List SlimDocument) (checks : Nat),
      (slimFetchGo c valid attachmentsOf cb pages acc checks).batches ≠ [] := by
  intro pages
  induction pages with
  | nil => intro acc checks; simp [slimFetchGo]
  | cons p rest ih =>
    intro acc checks
    by_cases hge : SLIM_DOC_BATCH_SIZE <
        (acc ++ pageSlimDocuments c valid attachmentsOf p).length
    · simp only [slimFetchGo]
      rw [if_pos hge]
      cases cb with
      | none => simp
      | some f =>
        dsimp only
        by_cases hf : f checks = true
        · rw [if_pos hf]
          simp
        · rw [if_neg hf]
          simp
    · simp only [slimFetchGo]
      rw [if_neg hge]
      exact ih _ checks

/-- C9: a slim metadata fetch that runs without cancellation always
ends by emitting the remaining accumulated list unconditionally: it
yields at least one batch, its batches concatenate to exactly the slim
documents of all pages, and on an empty pagination result the only
emitted batch is the empty list (an emission, not silence). -/
theorem slim_final_emission (c : ConfluenceConnector) (valid : ConfluenceRecord → Bool)
    (attachmentsOf : String → List ConfluenceRecord) (pages : List ConfluenceRecord) :
    (retrieve_all_slim_documents c valid attachmentsOf none pages).stopped = false ∧
    (retrieve_all_slim_documents c valid attachmentsOf none pages).batches ≠ [] ∧
    (retrieve_all_slim_documents c valid attachmentsOf none pages).batches.flatten =
      pages.flatMap (pageSlimDocuments c valid attachmentsOf) ∧
    (retrieve_all_slim_documents c valid attachmentsOf none []).batches = [[]] := by
  have h := slimFetchGo_none_spec c valid attachmentsOf pages [] 0
  exact ⟨h.1, h.2.2.1, by simpa using h.2.2.2, rfl⟩

/-- A callback-free run over a single page whose slim documents exceed
the slice constant emits exactly one full slice and then the oversized
remainder as the final batch. -/
theorem slimFetch_single_flush_none (c : ConfluenceConnector)
    (valid : ConfluenceRecord → Bool) (attachmentsOf : String → List ConfluenceRecord)
    (p : ConfluenceRecord)
    (h : SLIM_DOC_BATCH_SIZE < (pageSlimDocuments c valid attachmentsOf p).length) :
    retrieve_all_slim_documents c valid attachmentsOf none [p] =
      ⟨[(pageSlimDocuments c valid attachmentsOf p).take SLIM_DOC_BATCH_SIZE,
        (pageSlimDocuments c valid attachmentsOf p).drop SLIM_DOC_BATCH_SIZE],
        false, 0⟩ := by
  unfold retrieve_all_slim_documents
  simp only [slimFetchGo, List.nil_append]
  rw [if_pos h]

/-- A page record whose attachment list is big enough to overflow a
single slim slice. -/
def bigPage : ConfluenceRecord := ⟨"1", "/pages/1", [], some "SP", []⟩

/-- One valid attachment record, repeated many times under `bigPage`. -/
def bigAttachment : ConfluenceRecord := ⟨"9", "/att/9", [], some "SP", []⟩

/-- An attachment pagination answering 10001 attachments for any page. -/
def bigAttachmentsOf : String → List ConfluenceRecord :=
  fun _ => List.replicate 10001 bigAttachment

/-- The record `bigPage` contributes 1 + 10001 slim documents. -/
theorem bigPage_slim_length :
    (pageSlimDocuments sampleConnector (fun _ => true) bigAttachmentsOf bigPage).length =
      10002 := by
  have hfil : ((bigAttachmentsOf bigPage.rid).filter (fun _ => true)).length =
      (bigAttachmentsOf bigPage.rid).length :=
    List.filter_length_eq_length.mpr (fun a _ => rfl)
  rw [pageSlimDocuments, List.length_cons, List.length_map, hfil, bigAttachmentsOf,
    List.length_replicate]

/-- C7 counterexample: with one page carrying 10001 valid attachments,
the slim fetch emits two batches of sizes 5000 and 5002 — the final
batch exceeds the fixed constant 5000, refuting the claim that every
emitted batch contains at most 5000 slim documents. -/
theorem slim_batch_oversize_counterexample :
    ((retrieve_all_slim_documents sampleConnector (fun _ => true) bigAttachmentsOf none
        [bigPage]).batches.map List.length) = [5000, 5002] := by
  rw [slimFetch_single_flush_none sampleConnector (fun _ => true) bigAttachmentsOf bigPage
    (by rw [bigPage_slim_length]; decide)]
  rw [List.map_cons, List.map_cons, List.map_nil, List.length_take, List.length_drop,
    bigPage_slim_length]
  decide

/-- C7 (amended): every batch emitted by the slim metadata fetch other
than the final one contains exactly `_SLIM_DOC_BATCH_SIZE` (5000) slim
documents, a constant independent of the configured document batch
size; the final batch may have any size — including, when a single
page contributes more than an entire slice past the threshold, a size
exceeding 5000. -/
theorem slim_nonfinal_batch_sizes (c : ConfluenceConnector)
    (valid : ConfluenceRecord → Bool) (attachmentsOf : String → List ConfluenceRecord)
    (cb : Option (Nat → Bool)) (pages : List ConfluenceRecord) :
    ((retrieve_all_slim_documents c valid attachmentsOf cb pages).batches.dropLast).all
      (fun b => b.length == SLIM_DOC_BATCH_SIZE) = true := by
  unfold retrieve_all_slim_documents
  suffices h : ∀ (ps : List ConfluenceRecord) (acc : List SlimDocument) (checks : Nat),
      ((slimFetchGo c valid attachmentsOf cb ps acc checks).batches.dropLast).all
        (fun b => b.length == SLIM_DOC_BATCH_SIZE) = true by
    exact h pages [] 0
  intro ps
  induction ps with
  | nil => intro acc checks; simp [slimFetchGo]
  | cons p rest ih =>
    intro acc checks
    by_cases hge : SLIM_DOC_BATCH_SIZE <
        (acc ++ pageSlimDocuments c valid attachmentsOf p).length
    · have htake : ((acc ++ pageSlimDocuments c valid attachmentsOf p).take
          SLIM_DOC_BATCH_SIZE).length = SLIM_DOC_BATCH_SIZE := by
        rw [List.length_take]
        omega
      simp only [slimFetchGo]
      rw [if_pos hge]
      cases cb with
      | none =>
        have hne := slimFetchGo_batches_ne_nil c valid attachmentsOf none rest
          ((acc ++ pageSlimDocuments c valid attachmentsOf p).drop SLIM_DOC_BATCH_SIZE)
          checks
        have hih := ih ((acc ++ pageSlimDocuments c valid attachmentsOf p).drop
          SLIM_DOC_BATCH_SIZE) checks
        obtain ⟨b, bs, hbs⟩ := List.exists_cons_of_ne_nil hne
        rw [hbs] at hih
        dsimp only
        rw [hbs, List.dropLast_cons_of_ne_nil (by simp), List.all_cons, htake]
        simp [hih]
      | some f =>
        dsimp only
        by_cases hf : f checks = true
        · rw [if_pos hf]
          simp
        · rw [if_neg hf]
          have hne := slimFetchGo_batches_ne_nil c valid attachmentsOf (some f) rest
            ((acc ++ pageSlimDocuments c valid attachmentsOf p).drop SLIM_DOC_BATCH_SIZE)
            (checks + 1)
          have hih := ih ((acc ++ pageSlimDocuments c valid attachmentsOf p).drop
            SLIM_DOC_BATCH_SIZE) (checks + 1)
          obtain ⟨b, bs, hbs⟩ := List.exists_cons_of_ne_nil hne
          rw [hbs] at hih
          rw [hbs, List.dropLast_cons_of_ne_nil (by simp), List.all_cons, htake]
          simp [hih]
    · simp only [slimFetchGo]
      rw [if_neg hge]
      exact ih _ checks

/-- Callback accounting for a run with a callback: starting from `k`
prior checks, a stopped run performed one check per emitted batch and
its last check answered stop; an unstopped run performed one check per
emitted batch except the final unconditional one, and every check it
performed answered continue. -/
theorem slimFetchGo_checks_spec (c : ConfluenceConnector)
    (valid : ConfluenceRecord → Bool) (attachmentsOf : String → List ConfluenceRecord)
    (f : Nat → Bool) :
    ∀ (pages : List ConfluenceRecord) (acc : List SlimDocument) (k : Nat),
      ((slimFetchGo c valid attachmentsOf (some f) pages acc k).stopped = true →
        (slimFetchGo c valid attachmentsOf (some f) pages acc k).checks =
          k + (slimFetchGo c valid attachmentsOf (some f) pages acc k).batches.length ∧
        f ((slimFetchGo c valid attachmentsOf (some f) pages acc k).checks - 1) = true) ∧
      ((slimFetchGo c valid attachmentsOf (some f) pages acc k).stopped = false →
        (slimFetchGo c valid attachmentsOf (some f) pages acc k).checks + 1 =
          k + (slimFetchGo c valid attachmentsOf (some f) pages acc k).batches.length ∧
        ∀ i, k ≤ i → i < (slimFetchGo c valid attachmentsOf (some f) pages acc k).checks →
          f i = false) := by
  intro pages
  induction pages with
  | nil =>
    intro acc k
    constructor
    · intro hst
      simp [slimFetchGo] at hst
    · intro _
      refine ⟨by simp [slimFetchGo], ?_⟩
      intro i hki hik
      simp only [slimFetchGo] at hik
      omega
  | cons p rest ih =>
    intro acc k
    by_cases hge : SLIM_DOC_BATCH_SIZE <
        (acc ++ pageSlimDocuments c valid attachmentsOf p).length
    · by_cases hf : f k = true
      · simp only [slimFetchGo]
        rw [if_pos hge]
        rw [if_pos hf]
        refine ⟨fun _ => ⟨by simp, by simpa using hf⟩, fun hco => by simp at hco⟩
      · simp only [slimFetchGo]
        rw [if_pos hge]
        rw [if_neg hf]
        have hrec := ih ((acc ++ pageSlimDocuments c valid attachmentsOf p).drop
          SLIM_DOC_BATCH_SIZE) (k + 1)
        constructor
        · intro hst
          have h1 := hrec.1 hst
          refine ⟨?_, h1.2⟩
          simp only [List.length_cons]
          omega
        · intro hst
          have h2 := hrec.2 hst
          refine ⟨by simp only [List.length_cons]; omega, ?_⟩
          intro i hki hik
          rcases Nat.lt_or_ge i (k + 1) with hik1 | hik1
          · have : i = k := by omega
            subst this
            simpa using hf
          · exact h2.2 i hik1 hik
    · simp only [slimFetchGo]
      rw [if_neg hge]
      exact ih _ k

/-- C8 (amended): the cancellation callback's stop check is consulted
exactly once per emitted over-threshold slice — not once per page.  A
run that raised the stop signal performed exactly one check per
emitted batch and its last check answered stop; a run that ended
normally performed one check per emitted batch except the final
unconditional one, and every check it performed answered continue.
(The full document fetch takes no callback at all: cancellation is not
consulted there.) -/
theorem slim_cancellation_per_emission (c : ConfluenceConnector)
    (valid : ConfluenceRecord → Bool) (attachmentsOf : String → List ConfluenceRecord)
    (f : Nat → Bool) (pages : List ConfluenceRecord) :
    ((retrieve_all_slim_documents c valid attachmentsOf (some f) pages).stopped = true →
      (retrieve_all_slim_documents c valid attachmentsOf (some f) pages).checks =
        (retrieve_all_slim_documents c valid attachmentsOf (some f) pages).batches.length ∧
      f ((retrieve_all_slim_documents c valid attachmentsOf (some f) pages).checks - 1) =
        true) ∧
    ((retrieve_all_slim_documents c valid attachmentsOf (some f) pages).stopped = false →
      (retrieve_all_slim_documents c valid attachmentsOf (some f) pages).checks + 1 =
        (retrieve_all_slim_documents c valid attachmentsOf (some f) pages).batches.length ∧
      ∀ i < (retrieve_all_slim_documents c valid attachmentsOf (some f) pages).checks,
        f i = false) := by
  have h := slimFetchGo_checks_spec c valid attachmentsOf f pages [] 0
  unfold retrieve_all_slim_documents
  constructor
  · intro hst
    have h1 := h.1 hst
    exact ⟨by omega, h1.2⟩
  · intro hst
    have h2 := h.2 hst
    refine ⟨by omega, ?_⟩
    intro i hik
    exact h2.2 i (Nat.zero_le i) hik

/-- A small page record with its own restrictions, space and ancestor. -/
def smallPage : ConfluenceRecord := ⟨"2", "/pages/2", [("user", "u")], some "SP", ["1"]⟩

/-- Witness for `slim_cancellation_per_emission`: a single small page
with a never-stop callback ends normally with one batch and zero
checks. -/
theorem slim_cancellation_witness :
    (retrieve_all_slim_documents sampleConnector (fun _ => true) (fun _ => [])
        (some (fun _ => false)) [smallPage]).checks + 1 =
      (retrieve_all_slim_documents sampleConnector (fun _ => true) (fun _ => [])
        (some (fun _ => false)) [smallPage]).batches.length :=
  ((slim_cancellation_per_emission sampleConnector (fun _ => true) (fun _ => [])
    (fun _ => false) [smallPage]).2 (by decide)).1

/-- C8 counterexample: one page is processed under a callback that
always reports stop, yet the fetch never consults it (zero checks) and
completes without a stop signal, refuting both "invoked once per page
processed" and "whenever it reports stop the fetch fails": the check
happens only after an over-threshold slice emission. -/
theorem slim_cancellation_counterexample :
    (retrieve_all_slim_documents sampleConnector (fun _ => true) (fun _ => [])
        (some (fun _ => true)) [smallPage]).checks = 0 ∧
    (retrieve_all_slim_documents sampleConnector (fun _ => true) (fun _ => [])
        (some (fun _ => true)) [smallPage]).stopped = false := by
  decide

/-- A page with its own restrictions and space key. -/
def c5Page : ConfluenceRecord := ⟨"3", "/pages/3", [("group", "eng")], some "PG", []⟩

/-- An attachment with no restrictions of its own but with its own
space key, different from its parent page's. -/
def c5Attachment : ConfluenceRecord := ⟨"31", "/att/31", [], some "ATT", []⟩

/-- Fallback value for list indexing into slim batches. -/
def defaultSlimDocument : SlimDocument := ⟨"", ⟨[], none, none⟩⟩

/-- C5 counterexample: an attachment with no restrictions of its own
but with its own space key "ATT" under a parent page with space key
"PG" is emitted with space key "ATT", not the parent page's "PG" —
the space-key fallback is independent of the restrictions fallback. -/
theorem attachment_space_key_counterexample :
    c5Attachment.restrictions = [] ∧
    c5Page.spaceKey = some "PG" ∧
    (((retrieve_all_slim_documents sampleConnector (fun _ => true)
          (fun _ => [c5Attachment]) none [c5Page]).batches.getD 0 []).getD 1
        defaultSlimDocument).perm_sync_data.space_key = some "ATT" ∧
    (some "ATT" : Option String) ≠ some "PG" := by
  refine ⟨rfl, rfl, ?_, by decide⟩
  decide

/-- C5 (amended): an attachment emitted by the slim metadata fetch
whose raw record carries no restrictions of its own takes exactly the
parent page's restrictions; it takes the parent page's space key only
when it also lacks a (truthy) space key of its own — otherwise its own
space key is kept. -/
theorem attachment_inherits (c : ConfluenceConnector) (a : ConfluenceRecord)
    (page_restrictions : List (String × String)) (page_space_key : Option String)
    (hres : a.restrictions = []) :
    (attachmentSlimDocument c a page_restrictions page_space_key).perm_sync_data.restrictions =
      page_restrictions ∧
    (pyTruthyOptStr a.spaceKey = false →
      (attachmentSlimDocument c a page_restrictions page_space_key).perm_sync_data.space_key =
        page_space_key) := by
  constructor
  · simp [attachmentSlimDocument, hres]
  · intro hk
    simp [attachmentSlimDocument, hk]

/-- An attachment with neither restrictions nor a space key of its own. -/
def c5AttachmentNoKey : ConfluenceRecord := ⟨"32", "/att/32", [], none, []⟩

/-- Witness for `attachment_inherits`: a bare attachment under a page
with restrictions and space key inherits both. -/
theorem attachment_inherits_witness :
    (attachmentSlimDocument sampleConnector c5AttachmentNoKey [("group", "eng")]
        (some "PG")).perm_sync_data.restrictions = [("group", "eng")] ∧
    (attachmentSlimDocument sampleConnector c5AttachmentNoKey [("group", "eng")]
        (some "PG")).perm_sync_data.space_key = some "PG" :=
  ⟨(attachment_inherits sampleConnector c5AttachmentNoKey [("group", "eng")] (some "PG")
      rfl).1,
    (attachment_inherits sampleConnector c5AttachmentNoKey [("group", "eng")] (some "PG")
      rfl).2 rfl⟩

/-- Outcome of the `get_all_spaces(limit=1)` probe in
`validate_connector_settings`: an `HTTPError` with an optional status
code (`None` when the exception carries no response), any other
exception, or a response.  A response is `none` when the returned
`spaces` object or its `results` entry is falsy/missing, otherwise the
list of visible spaces. -/
inductive ProbeOutcome where
  | httpError (status : Option Nat)
  | otherError
  | ok (results : Option (List String))
deriving DecidableEq

/-- Which error `validate_connector_settings` raises, or success. -/
inductive ValidationOutcome where
  | missingCredential
  | credentialExpired
  | insufficientPermissions
  | unexpectedError
  | validationError
  | success
deriving DecidableEq

/-- Embedding of `ConfluenceConnector.validate_connector_settings`:
no client → `ConnectorMissingCredentialError`; `HTTPError` 401 →
`CredentialExpiredError`; 403 → `InsufficientPermissionsError`; any
other `HTTPError` or any other exception → `UnexpectedError`; a falsy
`spaces`/`results` → `ConnectorValidationError`; otherwise success. -/
def validate_connector_settings (clientLoaded : Bool) (probe : ProbeOutcome) :
    ValidationOutcome :=
  if !clientLoaded then ValidationOutcome.missingCredential
  else
    match probe with
    | ProbeOutcome.httpError status =>
      if status = some 401 then ValidationOutcome.credentialExpired
      else if status = some 403 then ValidationOutcome.insufficientPermissions
      else ValidationOutcome.unexpectedError
    | ProbeOutcome.otherError => ValidationOutcome.unexpectedError
    | ProbeOutcome.ok results =>
      match results with
      | none => ValidationOutcome.validationError
      | some rs =>
        if rs.isEmpty then ValidationOutcome.validationError
        else ValidationOutcome.success

/-- C4: the validation probe maps HTTP 401 to a credential-expired
error, HTTP 403 to an insufficient-permissions error, any other
transport or logic failure to a generic unexpected error, zero visible
spaces to a validation error, and a probe attempted before credentials
are attached to a missing-credentials error. -/
theorem validation_error_mapping :
    (∀ probe, validate_connector_settings false probe =
      ValidationOutcome.missingCredential) ∧
    validate_connector_settings true (ProbeOutcome.httpError (some 401)) =
      ValidationOutcome.credentialExpired ∧
    validate_connector_settings true (ProbeOutcome.httpError (some 403)) =
      ValidationOutcome.insufficientPermissions ∧
    (∀ status, status ≠ some 401 → status ≠ some 403 →
      validate_connector_settings true (ProbeOutcome.httpError status) =
        ValidationOutcome.unexpectedError) ∧
    validate_connector_settings true ProbeOutcome.otherError =
      ValidationOutcome.unexpectedError ∧
    validate_connector_settings true (ProbeOutcome.ok none) =
      ValidationOutcome.validationError ∧
    validate_connector_settings true (ProbeOutcome.ok (some [])) =
      ValidationOutcome.validationError ∧
    (∀ sp rest, validate_connector_settings true (ProbeOutcome.ok (some (sp :: rest))) =
      ValidationOutcome.success) := by
  refine ⟨fun probe => rfl, rfl, rfl, ?_, rfl, rfl, rfl, fun sp rest => rfl⟩
  intro status h1 h3
  simp [validate_connector_settings, h1, h3]

/-- Witness for `validation_error_mapping`: HTTP 500 maps to the
generic unexpected error. -/
theorem validation_error_mapping_witness :
    validate_connector_settings true (ProbeOutcome.httpError (some 500)) =
      ValidationOutcome.unexpectedError :=
  validation_error_mapping.2.2.2.1 (some 500) (by decide) (by decide)

/-- Dropping a prefix of characters satisfying the predicate reaches
the rest unchanged. -/
theorem dropWhile_replicate_append (p : Char → Bool) (ch : Char) (hp : p ch = true) :
    ∀ (n : Nat) (l : List Char),
      List.dropWhile p (List.replicate n ch ++ l) = List.dropWhile p l := by
  intro n
  induction n with
  | zero => intro l; simp
  | succ k ih =>
    intro l
    rw [List.replicate_succ, List.cons_append, List.dropWhile_cons]
    simp [hp, ih l]

/-- Appending trailing slashes does not change the result of
`rstrip("/")`. -/
theorem pyRstripSlash_append_slashes (w : String) (n : Nat) :
    pyRstripSlash (w ++ String.mk (List.replicate n '/')) = pyRstripSlash w := by
  unfold pyRstripSlash
  have hmk : (String.mk (List.replicate n '/')).data = List.replicate n '/' := rfl
  rw [String.data_append, hmk, List.reverse_append, List.reverse_replicate,
    dropWhile_replicate_append _ '/' (by decide) n]

/-- C10: a connector constructed from a wiki base URL with any number
of extra trailing slashes is identical to one constructed from the
plain URL — the constructor strips trailing slashes before the base is
stored — so constructed queries and canonical document/SlimDocument
ids coincide. -/
theorem trailing_slash_invariance (w : String) (n : Nat) (is_cloud : Bool)
    (space page_id : String) (index_recursively : Bool) (cql_query : Option String)
    (batch_size : Nat) (continue_on_failure : Bool) (labels_to_skip : List String)
    (tz_offset_seconds : Int) :
    ConfluenceConnector.init (w ++ String.mk (List.replicate n '/')) is_cloud space
        page_id index_recursively cql_query batch_size continue_on_failure
        labels_to_skip tz_offset_seconds =
      ConfluenceConnector.init w is_cloud space page_id index_recursively cql_query
        batch_size continue_on_failure labels_to_skip tz_offset_seconds ∧
    (∀ s e, construct_page_query
        (ConfluenceConnector.init (w ++ String.mk (List.replicate n '/')) is_cloud space
          page_id index_recursively cql_query batch_size continue_on_failure
          labels_to_skip tz_offset_seconds) s e =
      construct_page_query
        (ConfluenceConnector.init w is_cloud space page_id index_recursively cql_query
          batch_size continue_on_failure labels_to_skip tz_offset_seconds) s e) ∧
    (∀ webui, build_confluence_document_id
        (ConfluenceConnector.init (w ++ String.mk (List.replicate n '/')) is_cloud space
          page_id index_recursively cql_query batch_size continue_on_failure
          labels_to_skip tz_offset_seconds).wiki_base webui is_cloud =
      build_confluence_document_id
        (ConfluenceConnector.init w is_cloud space page_id index_recursively cql_query
          batch_size continue_on_failure labels_to_skip tz_offset_seconds).wiki_base
        webui is_cloud) := by
  have hinit : ConfluenceConnector.init (w ++ String.mk (List.replicate n '/')) is_cloud
      space page_id index_recursively cql_query batch_size continue_on_failure
      labels_to_skip tz_offset_seconds =
      ConfluenceConnector.init w is_cloud space page_id index_recursively cql_query
        batch_size continue_on_failure labels_to_skip tz_offset_seconds := by
    simp only [ConfluenceConnector.init]
    rw [pyRstripSlash_append_slashes]
  exact ⟨hinit, fun s e => by rw [hinit], fun webui => by rw [hinit]⟩
